import Mathlib

/-!
Verification of the gh-pric activity-aggregation pipeline (shallow embedding).

The Go source under verification lives in `main.go` and in the packaged
variant `github/output/output.go`, `github/client.go`, `github/model/model.go`,
`github/util/date.go`.  Both variants of every function are textually
identical up to package qualifiers, so each Go function is embedded once,
keeping its source name where Lean permits.

Modelling conventions:
- `time.Time` values are modelled as abstract integer instants (`Int`);
  Go's `After` / `Before` become `<` on `Int`.  `Format("2006-01-02")`
  is modelled by the injective decimal rendering `fmtDate` (no claim
  inspects the inside of a formatted date).
- Go byte strings are modelled as Lean `String`s; `len` / slicing act on
  the character list `String.data`, matching Go's byte operations
  position-for-position on the material the claims quantify over.
- Network calls are oracles: a page fetch is a function
  `page → attempt → Except String (List RawRecord)`, detail enrichment is
  a function `Item → Item × Option String` returning the (possibly
  partially updated) item together with the error, mirroring Go's
  in-place mutation plus returned `error`.
- File and network side effects of `main` are modelled as an explicit
  `Effect` trace.
-/

/-- Go struct `DateRange` (main.go:17, model.go): start and end instants. -/
structure DateRange where
  StartDate : Int
  EndDate : Int
  deriving Repr, DecidableEq

/-- Go struct `Comment` (main.go:41, model.go). -/
structure Comment where
  Author : String
  Body : String
  CreatedAt : Int
  UpdatedAt : Int
  deriving Repr, DecidableEq

/-- Go struct `Item` (main.go:23, model.go).  The Go field `Type` is named
`ItemType` here because `Type` is reserved in Lean. -/
structure Item where
  ItemType : String
  Number : Int
  Title : String
  URL : String
  State : String
  CreatedAt : Int
  UpdatedAt : Int
  Author : String
  Assignees : List String
  Labels : List String
  Repository : String
  Involvement : String
  Body : String
  Comments : List Comment
  deriving Repr, DecidableEq

/-- Whether the Go loop body of `filterIgnoredUserComments` keeps a comment:
`shouldKeep` stays `true` iff no `ignoreUser` equals `comment.Author`
(main.go:886-893, output.go:691-698). -/
def keepComment (ignoreUsers : List String) (c : Comment) : Bool :=
  !(ignoreUsers.any (fun ignoreUser => c.Author == ignoreUser))

/-- Go `filterIgnoredUserComments` (main.go:882-900) /
`output.FilterIgnoredUserComments` (output.go:687-705): for each item,
rebuild its comment list keeping, in order, the comments whose author is
not in `ignoreUsers`. -/
def filterIgnoredUserComments (items : List Item) (ignoreUsers : List String) :
    List Item :=
  items.map (fun it => { it with Comments := it.Comments.filter (keepComment ignoreUsers) })

/-- Projection of an `Item` to everything except its `Comments` field
(comments blanked), used to state frame conditions. -/
def frameOf (it : Item) : Item := { it with Comments := [] }

/-- One summary record of a `search/issues` response page, as decoded by the
anonymous response struct in `fetchIssues` / `fetchPRs` (main.go:279-298,
393-415); assignee and label sub-objects are already projected to their
`login` / `name` fields. -/
structure RawRecord where
  URL : String
  Number : Int
  Title : String
  State : String
  CreatedAt : Int
  UpdatedAt : Int
  RepositoryURL : String
  UserLogin : String
  Assignees : List String
  Labels : List String
  deriving Repr, DecidableEq

/-- The retry loop shared by every network call (main.go:304-313 and
analogues): three attempts, stopping at the first success; if all fail, the
error of the last attempt is returned.  The oracle `get` maps the attempt
number (0-based) to that attempt's outcome. -/
def retry3 {α : Type} (get : Nat → Except String α) : Except String α :=
  match get 0 with
  | Except.ok a => Except.ok a
  | Except.error _ =>
    match get 1 with
    | Except.ok a => Except.ok a
    | Except.error _ => get 2

/-- Record-to-`Item` conversion inside the page loop of `fetchIssues` /
`fetchPRs` (main.go:331-364, 448-481): repository name is the last two
segments of the repository URL split on "/" (empty when fewer than two
segments), and the claimed `Type` is "Issue" or "PR" per fetcher. -/
def processRecord (tyStr : String) (r : RawRecord) : Item :=
  let repoParts := r.RepositoryURL.splitOn "/"
  let repoName :=
    if 2 ≤ repoParts.length then
      repoParts[repoParts.length - 2]! ++ "/" ++ repoParts[repoParts.length - 1]!
    else ""
  { ItemType := tyStr
    Number := r.Number
    Title := r.Title
    URL := r.URL
    State := r.State
    CreatedAt := r.CreatedAt
    UpdatedAt := r.UpdatedAt
    Author := r.UserLogin
    Assignees := r.Assignees
    Labels := r.Labels
    Repository := repoName
    Involvement := ""
    Body := ""
    Comments := [] }

/-- The client-side date post-filter of the page loop (main.go:326-329,
443-446): a record is kept unless its creation time is strictly after the
range end or strictly before the range start. -/
def inRange (range : DateRange) (r : RawRecord) : Bool :=
  !(decide (range.EndDate < r.CreatedAt) || decide (r.CreatedAt < range.StartDate))

/-- The pagination loop shared by `fetchIssues` and `fetchPRs`
(main.go:274-377, 388-494).  `get page attempt` is the transport oracle for
`client.Get(query&page=N)`.  The Go loop starts at `page = 1`, stops at an
empty page, and otherwise increments `page`, stopping once `page > 10`;
here `fuel = 10 - page` counts the remaining permitted increments, so the
Go ceiling test `page+1 > 10` is exactly `fuel = 0` (the loop is entered
with `page = 1`, `fuel = 9`).  The result carries the accumulated in-range
items and the number of page requests issued. -/
def fetchPagesAux (get : Nat → Nat → Except String (List RawRecord))
    (range : DateRange) (tyStr : String) :
    Nat → Nat → Except String (List Item × Nat)
  | page, fuel =>
    match retry3 (get page) with
    | Except.error e => Except.error ("Failed to retrieve " ++ tyStr ++ "s: " ++ e)
    | Except.ok recs =>
      if recs.isEmpty then Except.ok ([], 1)
      else
        let items := (recs.filter (inRange range)).map (processRecord tyStr)
        match fuel with
        | 0 => Except.ok (items, 1)
        | fuel' + 1 =>
          (fetchPagesAux get range tyStr (page + 1) fuel').map
            (fun p => (items ++ p.1, p.2 + 1))

/-- Go `fetchIssues` (main.go:253-378) with the transport abstracted: the
query construction varies only the search qualifier, which the oracle
absorbs; the loop starts at page 1 with 9 permitted increments (pages up to
10). -/
def fetchIssues (get : Nat → Nat → Except String (List RawRecord))
    (range : DateRange) : Except String (List Item × Nat) :=
  fetchPagesAux get range "Issue" 1 9

/-- Go `fetchPRs` (main.go:381-495), same loop with `Type` = "PR". -/
def fetchPRs (get : Nat → Nat → Except String (List RawRecord))
    (range : DateRange) : Except String (List Item × Nat) :=
  fetchPagesAux get range "PR" 1 9

theorem processRecord_CreatedAt (ty : String) (r : RawRecord) :
    (processRecord ty r).CreatedAt = r.CreatedAt := rfl

theorem mem_pageItems_range (range : DateRange) (ty : String)
    (recs : List RawRecord) (it : Item)
    (hit : it ∈ (recs.filter (inRange range)).map (processRecord ty)) :
    range.StartDate ≤ it.CreatedAt ∧ it.CreatedAt ≤ range.EndDate := by
  rcases List.mem_map.mp hit with ⟨r, hr, rfl⟩
  have hp := (List.mem_filter.mp hr).2
  rw [processRecord_CreatedAt]
  simp only [inRange, Bool.not_eq_true', Bool.or_eq_false_iff,
    decide_eq_false_iff_not, not_lt] at hp
  exact ⟨hp.2, hp.1⟩

theorem fetchPagesAux_zero (get : Nat → Nat → Except String (List RawRecord))
    (range : DateRange) (ty : String) (page : Nat) :
    fetchPagesAux get range ty page 0 =
      match retry3 (get page) with
      | Except.error e =>
        Except.error ("Failed to retrieve " ++ ty ++ "s: " ++ e)
      | Except.ok recs =>
        if recs.isEmpty then Except.ok ([], 1)
        else
          Except.ok ((recs.filter (inRange range)).map (processRecord ty), 1) := by
  rw [fetchPagesAux]

theorem fetchPagesAux_succ (get : Nat → Nat → Except String (List RawRecord))
    (range : DateRange) (ty : String) (page fuel : Nat) :
    fetchPagesAux get range ty page (fuel + 1) =
      match retry3 (get page) with
      | Except.error e =>
        Except.error ("Failed to retrieve " ++ ty ++ "s: " ++ e)
      | Except.ok recs =>
        if recs.isEmpty then Except.ok ([], 1)
        else
          (fetchPagesAux get range ty (page + 1) fuel).map
            (fun p => ((recs.filter (inRange range)).map (processRecord ty) ++ p.1,
                       p.2 + 1)) := by
  rw [fetchPagesAux]

theorem fetchPagesAux_mem_range (get : Nat → Nat → Except String (List RawRecord))
    (range : DateRange) (ty : String) :
    ∀ (fuel page : Nat) (items : List Item) (n : Nat),
      fetchPagesAux get range ty page fuel = Except.ok (items, n) →
      ∀ it ∈ items,
        range.StartDate ≤ it.CreatedAt ∧ it.CreatedAt ≤ range.EndDate := by
  intro fuel
  induction fuel with
  | zero =>
    intro page items n h it hit
    rw [fetchPagesAux_zero] at h
    split at h
    · exact absurd h (by simp)
    · split at h
      · cases h
        cases hit
      · simp only [Except.ok.injEq, Prod.mk.injEq] at h
        exact mem_pageItems_range range ty _ it (h.1 ▸ hit)
  | succ fuel ih =>
    intro page items n h it hit
    rw [fetchPagesAux_succ] at h
    split at h
    · exact absurd h (by simp)
    · split at h
      · cases h
        cases hit
      · cases hrec : fetchPagesAux get range ty (page + 1) fuel with
        | error e => rw [hrec] at h; exact absurd h (by simp [Except.map])
        | ok p =>
          rw [hrec] at h
          simp only [Except.map, Except.ok.injEq, Prod.mk.injEq] at h
          rcases List.mem_append.mp (h.1 ▸ hit) with hl | hr
          · exact mem_pageItems_range range ty _ it hl
          · exact ih (page + 1) p.1 p.2 (by rw [hrec]) it hr

/-- C1: the paginated fetchers apply the date post-filter: every item in a
successful `fetchIssues` / `fetchPRs` result has its creation time inside
`[StartDate, EndDate]`, whatever records the transport oracle returned. -/
theorem fetch_date_postfilter (get : Nat → Nat → Except String (List RawRecord))
    (range : DateRange) :
    (∀ items n, fetchIssues get range = Except.ok (items, n) →
      ∀ it ∈ items,
        range.StartDate ≤ it.CreatedAt ∧ it.CreatedAt ≤ range.EndDate) ∧
    (∀ items n, fetchPRs get range = Except.ok (items, n) →
      ∀ it ∈ items,
        range.StartDate ≤ it.CreatedAt ∧ it.CreatedAt ≤ range.EndDate) :=
  ⟨fun items n h => fetchPagesAux_mem_range get range "Issue" 9 1 items n h,
   fun items n h => fetchPagesAux_mem_range get range "PR" 9 1 items n h⟩

theorem fetchPagesAux_count_full (get : Nat → Nat → Except String (List RawRecord))
    (range : DateRange) (ty : String) :
    ∀ (fuel page : Nat),
      (∀ p a, page ≤ p → ∃ rs, get p a = Except.ok rs ∧ rs ≠ []) →
      ∃ items, fetchPagesAux get range ty page fuel = Except.ok (items, fuel + 1) := by
  intro fuel
  induction fuel with
  | zero =>
    intro page hne
    obtain ⟨rs, hrs, hne0⟩ := hne page 0 le_rfl
    rw [fetchPagesAux_zero, retry3, hrs]
    simp only [List.isEmpty_eq_true]
    rw [if_neg hne0]
    exact ⟨_, rfl⟩
  | succ fuel ih =>
    intro page hne
    obtain ⟨rs, hrs, hne0⟩ := hne page 0 le_rfl
    obtain ⟨items', hrec⟩ := ih (page + 1) (fun p a hp => hne p a (by omega))
    rw [fetchPagesAux_succ, retry3, hrs]
    simp only [List.isEmpty_eq_true]
    rw [if_neg hne0, hrec]
    exact ⟨_, rfl⟩

theorem fetchPagesAux_count_firstEmpty
    (get : Nat → Nat → Except String (List RawRecord))
    (range : DateRange) (ty : String) (k : Nat)
    (hk : ∀ a, get k a = Except.ok []) :
    ∀ (fuel page : Nat), page ≤ k → k ≤ page + fuel →
      (∀ p a, page ≤ p → p < k → ∃ rs, get p a = Except.ok rs ∧ rs ≠ []) →
      ∃ items,
        fetchPagesAux get range ty page fuel = Except.ok (items, k - page + 1) := by
  intro fuel
  induction fuel with
  | zero =>
    intro page hpk hkp _
    have hpage : page = k := by omega
    subst hpage
    rw [fetchPagesAux_zero, retry3, hk 0]
    exact ⟨[], by simp⟩
  | succ fuel ih =>
    intro page hpk hkp hne
    by_cases hpage : page = k
    · subst hpage
      rw [fetchPagesAux_succ, retry3, hk 0]
      exact ⟨[], by simp⟩
    · have hlt : page < k := lt_of_le_of_ne hpk hpage
      obtain ⟨rs, hrs, hne0⟩ := hne page 0 le_rfl hlt
      obtain ⟨items', hrec⟩ :=
        ih (page + 1) hlt (by omega) (fun p a hp hpk2 => hne p a (by omega) hpk2)
      rw [fetchPagesAux_succ, retry3, hrs]
      simp only [List.isEmpty_eq_true]
      rw [if_neg hne0, hrec]
      refine ⟨(rs.filter (inRange range)).map (processRecord ty) ++ items', ?_⟩
      simp only [Except.map, Except.ok.injEq, Prod.mk.injEq]
      refine ⟨trivial, by omega⟩

theorem fetchPagesAux_count_le (get : Nat → Nat → Except String (List RawRecord))
    (range : DateRange) (ty : String) :
    ∀ (fuel page : Nat) (items : List Item) (n : Nat),
      fetchPagesAux get range ty page fuel = Except.ok (items, n) →
      n ≤ fuel + 1 := by
  intro fuel
  induction fuel with
  | zero =>
    intro page items n h
    rw [fetchPagesAux_zero] at h
    split at h
    · exact absurd h (by simp)
    · split at h <;> (cases h; exact le_rfl)
  | succ fuel ih =>
    intro page items n h
    rw [fetchPagesAux_succ] at h
    split at h
    · exact absurd h (by simp)
    · split at h
      · cases h; omega
      · cases hrec : fetchPagesAux get range ty (page + 1) fuel with
        | error e => rw [hrec] at h; exact absurd h (by simp [Except.map])
        | ok p =>
          rw [hrec] at h
          simp only [Except.map, Except.ok.injEq, Prod.mk.injEq] at h
          have := ih (page + 1) p.1 p.2 (by rw [hrec])
          omega

/-- C3: termination and page count of the pagination loop, entered as in the
source at page 1 with ceiling 10: (a) a source whose every request yields a
non-empty page makes exactly 10 page requests; (b) a source that is first
empty at page `k ≤ 10` makes exactly `k` requests; (c) every successful run
makes at most 10 requests (and the loop is total by construction). -/
theorem pagination_termination
    (get : Nat → Nat → Except String (List RawRecord))
    (range : DateRange) (ty : String) :
    ((∀ p a, ∃ rs, get p a = Except.ok rs ∧ rs ≠ []) →
      ∃ items, fetchPagesAux get range ty 1 9 = Except.ok (items, 10)) ∧
    (∀ k, 1 ≤ k → k ≤ 10 →
      (∀ p a, p < k → ∃ rs, get p a = Except.ok rs ∧ rs ≠ []) →
      (∀ a, get k a = Except.ok []) →
      ∃ items, fetchPagesAux get range ty 1 9 = Except.ok (items, k)) ∧
    (∀ items n, fetchPagesAux get range ty 1 9 = Except.ok (items, n) →
      n ≤ 10) := by
  refine ⟨?_, ?_, ?_⟩
  · intro hne
    exact fetchPagesAux_count_full get range ty 9 1 (fun p a _ => hne p a)
  · intro k hk1 hk10 hne hempty
    obtain ⟨items, h⟩ :=
      fetchPagesAux_count_firstEmpty get range ty k hempty 9 1 hk1 (by omega)
        (fun p a _ hp => hne p a hp)
    have hkk : k - 1 + 1 = k := by omega
    rw [hkk] at h
    exact ⟨items, h⟩
  · intro items n h
    exact fetchPagesAux_count_le get range ty 9 1 items n h

/-- The network capabilities `fetchAllItems` consumes (main.go:155-250):
list fetches per involvement/page/attempt, and per-item detail enrichment.
An enrichment call returns the item in the state it reached (Go mutates the
item in place) together with the error, if any, of the failing sub-call. -/
structure Client where
  issueGet : String → Nat → Nat → Except String (List RawRecord)
  prGet : String → Nat → Nat → Except String (List RawRecord)
  issueEnrich : Item → Item × Option String
  prEnrich : Item → Item × Option String

/-- The warning `fetchAllItems` prints when detail enrichment of one item
fails (main.go:169, 184, 199, 214, 229, 244). -/
def warnMsg (ty : String) (number : Int) (e : String) : String :=
  "Failed to retrieve details for " ++ ty ++ " (ID: " ++ toString number ++ "): " ++ e

/-- One pass's per-item loop of `fetchAllItems` (e.g. main.go:164-171): tag
each fetched item with the pass's involvement, run enrichment, keep the item
in whatever state enrichment left it. -/
def enrichPass (enrich : Item → Item × Option String) (inv : String)
    (l : List Item) : List Item :=
  l.map (fun it => (enrich { it with Involvement := inv }).1)

/-- The warnings the same per-item loop emits: one `warnMsg` per item whose
enrichment returned an error; the run is not interrupted. -/
def warnPass (enrich : Item → Item × Option String) (ty inv : String)
    (l : List Item) : List String :=
  (l.map (fun it => enrich { it with Involvement := inv })).filterMap
    (fun r => r.2.map (fun e => warnMsg ty r.1.Number e))

/-- Go `fetchAllItems` (main.go:155-250): six passes in fixed order
(Issues created/assigned/commented, then PRs created/assigned/reviewed).
A list-fetch error aborts immediately (`return nil, err`); enrichment
errors only add warnings.  The returned pair is the concatenated item
aggregate and the warning log (Go writes the warnings to stderr). -/
def fetchAllItems (c : Client) (range : DateRange) :
    Except String (List Item × List String) :=
  match fetchIssues (c.issueGet "created") range with
  | Except.error e => Except.error e
  | Except.ok (createdIssues, _) =>
  match fetchIssues (c.issueGet "assigned") range with
  | Except.error e => Except.error e
  | Except.ok (assignedIssues, _) =>
  match fetchIssues (c.issueGet "commented") range with
  | Except.error e => Except.error e
  | Except.ok (commentedIssues, _) =>
  match fetchPRs (c.prGet "created") range with
  | Except.error e => Except.error e
  | Except.ok (createdPRs, _) =>
  match fetchPRs (c.prGet "assigned") range with
  | Except.error e => Except.error e
  | Except.ok (assignedPRs, _) =>
  match fetchPRs (c.prGet "reviewed") range with
  | Except.error e => Except.error e
  | Except.ok (reviewedPRs, _) =>
    Except.ok
      (enrichPass c.issueEnrich "created" createdIssues ++
       enrichPass c.issueEnrich "assigned" assignedIssues ++
       enrichPass c.issueEnrich "commented" commentedIssues ++
       enrichPass c.prEnrich "created" createdPRs ++
       enrichPass c.prEnrich "assigned" assignedPRs ++
       enrichPass c.prEnrich "reviewed" reviewedPRs,
       warnPass c.issueEnrich "Issue" "created" createdIssues ++
       warnPass c.issueEnrich "Issue" "assigned" assignedIssues ++
       warnPass c.issueEnrich "Issue" "commented" commentedIssues ++
       warnPass c.prEnrich "PR" "created" createdPRs ++
       warnPass c.prEnrich "PR" "assigned" assignedPRs ++
       warnPass c.prEnrich "PR" "reviewed" reviewedPRs)

/-- Observable side effects of a run of `main` (network traffic, file
creation, file writes). -/
inductive Effect where
  | network
  | createFile (name : String)
  | writeFile (name : String)
  deriving Repr, DecidableEq

def Effect.isCreate : Effect → Bool
  | Effect.createFile _ => true
  | _ => false

/-- Go `writeResultsToFile` (main.go:514-530) / `output.WriteResults`
(output.go:13-29) at the effect level: `os.Create` runs first in every
case, then the format switch either writes the document or rejects the
format. -/
def writeResultsToFile (items : List Item) (filename username : String)
    (range : DateRange) (format : String) : List Effect × Option String :=
  match format with
  | "json" => ([Effect.createFile filename, Effect.writeFile filename], none)
  | "md" => ([Effect.createFile filename, Effect.writeFile filename], none)
  | _ => ([Effect.createFile filename],
          some ("Unsupported output format: " ++ format))

/-- Go `main` (main.go:48-127) from validated inputs onward, as an effect
trace plus optional fatal error: format validation runs first (main.go:65-68)
and exits before the client is initialized; then the user-info call and the
aggregation fetches (network), then comment filtering when the ignore list
is non-empty, then the file write. -/
def mainRun (outputFormat : String) (c : Client) (range : DateRange)
    (username : String) (ignoreUsers : List String) (outputFile : String) :
    List Effect × Option String :=
  if outputFormat ≠ "md" ∧ outputFormat ≠ "json" then
    ([], some ("Invalid output format: " ++ outputFormat ++
               " (please specify md or json)"))
  else
    let effs := [Effect.network, Effect.network]
    match fetchAllItems c range with
    | Except.error e => (effs, some ("Failed to retrieve data: " ++ e))
    | Except.ok (items, _) =>
      let finalItems :=
        if 0 < ignoreUsers.length then filterIgnoredUserComments items ignoreUsers
        else items
      let w := writeResultsToFile finalItems outputFile username range outputFormat
      (effs ++ w.1, w.2.map (fun e => "Failed to write to file: " ++ e))

theorem retry3_error {α : Type} (get : Nat → Except String α) (e : String)
    (h : ∀ a, a < 3 → get a = Except.error e) :
    retry3 get = Except.error e := by
  unfold retry3
  rw [h 0 (by omega), h 1 (by omega), h 2 (by omega)]

theorem fetchPagesAux_error (get : Nat → Nat → Except String (List RawRecord))
    (range : DateRange) (ty : String) (page fuel : Nat) (e : String)
    (h : retry3 (get page) = Except.error e) :
    fetchPagesAux get range ty page fuel =
      Except.error ("Failed to retrieve " ++ ty ++ "s: " ++ e) := by
  cases fuel with
  | zero => rw [fetchPagesAux_zero, h]
  | succ fuel => rw [fetchPagesAux_succ, h]

theorem retry3_error_last {α : Type} (get : Nat → Except String α)
    (h : ∀ a, a < 3 → ∃ err, get a = Except.error err) :
    ∃ e, retry3 get = Except.error e := by
  obtain ⟨e0, h0⟩ := h 0 (by omega)
  obtain ⟨e1, h1⟩ := h 1 (by omega)
  obtain ⟨e2, h2⟩ := h 2 (by omega)
  refine ⟨e2, ?_⟩
  unfold retry3
  rw [h0, h1, h2]

theorem fetchPagesAux_error_at (get : Nat → Nat → Except String (List RawRecord))
    (range : DateRange) (ty : String) (p : Nat) (e : String)
    (hp : retry3 (get p) = Except.error e) :
    ∀ (fuel page : Nat), page ≤ p → p ≤ page + fuel →
      (∀ q a, page ≤ q → q < p → ∃ rs, get q a = Except.ok rs ∧ rs ≠ []) →
      fetchPagesAux get range ty page fuel =
        Except.error ("Failed to retrieve " ++ ty ++ "s: " ++ e) := by
  intro fuel
  induction fuel with
  | zero =>
    intro page hpk hkp _
    have hpage : page = p := by omega
    subst hpage
    rw [fetchPagesAux_zero, hp]
  | succ fuel ih =>
    intro page hpk hkp hne
    by_cases hpage : page = p
    · subst hpage
      rw [fetchPagesAux_succ, hp]
    · have hlt : page < p := lt_of_le_of_ne hpk hpage
      obtain ⟨rs, hrs, hne0⟩ := hne page 0 le_rfl hlt
      have hok : retry3 (get page) = Except.ok rs := by
        unfold retry3
        rw [hrs]
      rw [fetchPagesAux_succ, hok]
      simp only [List.isEmpty_eq_true]
      rw [if_neg hne0,
        ih (page + 1) hlt (by omega) (fun q a hq hqp => hne q a (by omega) hqp)]
      rfl

/-- C2: the orchestrator's failure policy.  (a) A page request that fails on
all three retry attempts, at any page `p ≤ 10` the loop reaches (every
earlier page non-empty), makes that pass's paginated fetch fail with the
wrapped transport error.  (b) A list-fetch failure in any of the six passes
makes `fetchAllItems` return an error.  (c) When the aggregation fails, a
`main` run with any requested format creates no output file, so no partial
report is written.  (d) If all six list fetches succeed, the run succeeds
whatever the enrichment oracles do: every fetched item is kept, tagged and
in the state enrichment left it, and enrichment errors surface only in the
warning log.  (e) Every failed enrichment contributes its warning (naming
the item's kind and number) to the pass's warning log. -/
theorem fetchAllItems_error_policy (c : Client) (range : DateRange) :
    (∀ (get : Nat → Nat → Except String (List RawRecord)) (ty : String)
       (p : Nat), 1 ≤ p → p ≤ 10 →
      (∀ q a, 1 ≤ q → q < p → ∃ rs, get q a = Except.ok rs ∧ rs ≠ []) →
      (∀ a, a < 3 → ∃ err, get p a = Except.error err) →
      ∃ e2, fetchPagesAux get range ty 1 9 = Except.error e2) ∧
    (((∃ e, fetchIssues (c.issueGet "created") range = Except.error e) ∨
      (∃ e, fetchIssues (c.issueGet "assigned") range = Except.error e) ∨
      (∃ e, fetchIssues (c.issueGet "commented") range = Except.error e) ∨
      (∃ e, fetchPRs (c.prGet "created") range = Except.error e) ∨
      (∃ e, fetchPRs (c.prGet "assigned") range = Except.error e) ∨
      (∃ e, fetchPRs (c.prGet "reviewed") range = Except.error e)) →
      ∃ e2, fetchAllItems c range = Except.error e2) ∧
    (∀ e, fetchAllItems c range = Except.error e →
      ∀ outputFormat username ignoreUsers outputFile,
        ((mainRun outputFormat c range username ignoreUsers outputFile).1.all
          (fun ef => !ef.isCreate)) = true) ∧
    (∀ l1 n1 l2 n2 l3 n3 l4 n4 l5 n5 l6 n6,
      fetchIssues (c.issueGet "created") range = Except.ok (l1, n1) →
      fetchIssues (c.issueGet "assigned") range = Except.ok (l2, n2) →
      fetchIssues (c.issueGet "commented") range = Except.ok (l3, n3) →
      fetchPRs (c.prGet "created") range = Except.ok (l4, n4) →
      fetchPRs (c.prGet "assigned") range = Except.ok (l5, n5) →
      fetchPRs (c.prGet "reviewed") range = Except.ok (l6, n6) →
      fetchAllItems c range =
        Except.ok
          (enrichPass c.issueEnrich "created" l1 ++
           enrichPass c.issueEnrich "assigned" l2 ++
           enrichPass c.issueEnrich "commented" l3 ++
           enrichPass c.prEnrich "created" l4 ++
           enrichPass c.prEnrich "assigned" l5 ++
           enrichPass c.prEnrich "reviewed" l6,
           warnPass c.issueEnrich "Issue" "created" l1 ++
           warnPass c.issueEnrich "Issue" "assigned" l2 ++
           warnPass c.issueEnrich "Issue" "commented" l3 ++
           warnPass c.prEnrich "PR" "created" l4 ++
           warnPass c.prEnrich "PR" "assigned" l5 ++
           warnPass c.prEnrich "PR" "reviewed" l6)) ∧
    (∀ (enrich : Item → Item × Option String) (ty inv : String)
       (l : List Item) (it : Item) (e : String), it ∈ l →
      (enrich { it with Involvement := inv }).2 = some e →
      warnMsg ty (enrich { it with Involvement := inv }).1.Number e ∈
        warnPass enrich ty inv l) := by
  refine ⟨?_, ?_, ?_, ?_, ?_⟩
  · intro get ty p hp1 hp10 hbefore hfail
    obtain ⟨e, hret⟩ := retry3_error_last (get p) hfail
    exact ⟨_, fetchPagesAux_error_at get range ty p e hret 9 1 hp1 (by omega)
      (fun q a hq hqp => hbefore q a hq hqp)⟩
  · intro h
    rcases h with ⟨e, h⟩ | ⟨e, h⟩ | ⟨e, h⟩ | ⟨e, h⟩ | ⟨e, h⟩ | ⟨e, h⟩
    · exact ⟨e, by unfold fetchAllItems; rw [h]⟩
    · cases h1 : fetchIssues (c.issueGet "created") range with
      | error e1 => exact ⟨e1, by unfold fetchAllItems; rw [h1]⟩
      | ok v1 =>
        obtain ⟨l1, n1⟩ := v1
        exact ⟨e, by unfold fetchAllItems; rw [h1, h]⟩
    · cases h1 : fetchIssues (c.issueGet "created") range with
      | error e1 => exact ⟨e1, by unfold fetchAllItems; rw [h1]⟩
      | ok v1 =>
        obtain ⟨l1, n1⟩ := v1
        cases h2 : fetchIssues (c.issueGet "assigned") range with
        | error e2 => exact ⟨e2, by unfold fetchAllItems; rw [h1, h2]⟩
        | ok v2 =>
          obtain ⟨l2, n2⟩ := v2
          exact ⟨e, by unfold fetchAllItems; rw [h1, h2, h]⟩
    · cases h1 : fetchIssues (c.issueGet "created") range with
      | error e1 => exact ⟨e1, by unfold fetchAllItems; rw [h1]⟩
      | ok v1 =>
        obtain ⟨l1, n1⟩ := v1
        cases h2 : fetchIssues (c.issueGet "assigned") range with
        | error e2 => exact ⟨e2, by unfold fetchAllItems; rw [h1, h2]⟩
        | ok v2 =>
          obtain ⟨l2, n2⟩ := v2
          cases h3 : fetchIssues (c.issueGet "commented") range with
          | error e3 => exact ⟨e3, by unfold fetchAllItems; rw [h1, h2, h3]⟩
          | ok v3 =>
            obtain ⟨l3, n3⟩ := v3
            exact ⟨e, by unfold fetchAllItems; rw [h1, h2, h3, h]⟩
    · cases h1 : fetchIssues (c.issueGet "created") range with
      | error e1 => exact ⟨e1, by unfold fetchAllItems; rw [h1]⟩
      | ok v1 =>
        obtain ⟨l1, n1⟩ := v1
        cases h2 : fetchIssues (c.issueGet "assigned") range with
        | error e2 => exact ⟨e2, by unfold fetchAllItems; rw [h1, h2]⟩
        | ok v2 =>
          obtain ⟨l2, n2⟩ := v2
          cases h3 : fetchIssues (c.issueGet "commented") range with
          | error e3 => exact ⟨e3, by unfold fetchAllItems; rw [h1, h2, h3]⟩
          | ok v3 =>
            obtain ⟨l3, n3⟩ := v3
            cases h4 : fetchPRs (c.prGet "created") range with
            | error e4 =>
              exact ⟨e4, by unfold fetchAllItems; rw [h1, h2, h3, h4]⟩
            | ok v4 =>
              obtain ⟨l4, n4⟩ := v4
              exact ⟨e, by unfold fetchAllItems; rw [h1, h2, h3, h4, h]⟩
    · cases h1 : fetchIssues (c.issueGet "created") range with
      | error e1 => exact ⟨e1, by unfold fetchAllItems; rw [h1]⟩
      | ok v1 =>
        obtain ⟨l1, n1⟩ := v1
        cases h2 : fetchIssues (c.issueGet "assigned") range with
        | error e2 => exact ⟨e2, by unfold fetchAllItems; rw [h1, h2]⟩
        | ok v2 =>
          obtain ⟨l2, n2⟩ := v2
          cases h3 : fetchIssues (c.issueGet "commented") range with
          | error e3 => exact ⟨e3, by unfold fetchAllItems; rw [h1, h2, h3]⟩
          | ok v3 =>
            obtain ⟨l3, n3⟩ := v3
            cases h4 : fetchPRs (c.prGet "created") range with
            | error e4 =>
              exact ⟨e4, by unfold fetchAllItems; rw [h1, h2, h3, h4]⟩
            | ok v4 =>
              obtain ⟨l4, n4⟩ := v4
              cases h5 : fetchPRs (c.prGet "assigned") range with
              | error e5 =>
                exact ⟨e5, by unfold fetchAllItems; rw [h1, h2, h3, h4, h5]⟩
              | ok v5 =>
                obtain ⟨l5, n5⟩ := v5
                exact ⟨e, by unfold fetchAllItems; rw [h1, h2, h3, h4, h5, h]⟩
  · intro e he outputFormat username ignoreUsers outputFile
    unfold mainRun
    by_cases hv : outputFormat ≠ "md" ∧ outputFormat ≠ "json"
    · rw [if_pos hv]
      rfl
    · rw [if_neg hv, he]
      rfl
  · intro l1 n1 l2 n2 l3 n3 l4 n4 l5 n5 l6 n6 h1 h2 h3 h4 h5 h6
    unfold fetchAllItems
    rw [h1, h2, h3, h4, h5, h6]
  · intro enrich ty inv l it e hit he
    unfold warnPass
    rw [List.mem_filterMap]
    refine ⟨enrich { it with Involvement := inv }, List.mem_map_of_mem _ hit, ?_⟩
    rw [he]
    rfl

/-- C4: an unsupported output-format token makes the run fail with the
configuration error message, with an empty effect trace: no network call is
made and no file is created, because `main` validates the format before
initializing the client. -/
theorem invalid_format_fails_fast (outputFormat : String)
    (h1 : outputFormat ≠ "md") (h2 : outputFormat ≠ "json")
    (c : Client) (range : DateRange) (username : String)
    (ignoreUsers : List String) (outputFile : String) :
    mainRun outputFormat c range username ignoreUsers outputFile =
      ([], some ("Invalid output format: " ++ outputFormat ++
                 " (please specify md or json)")) := by
  unfold mainRun
  rw [if_pos ⟨h1, h2⟩]

/-- Injective stand-in for Go's `t.Format("2006-01-02")`: instants are
abstract integers, rendered in decimal.  No claim inspects the inside of a
formatted date. -/
def fmtDate (t : Int) : String := toString t

/-- The body/comment truncation inlined in `writeItemDetails`
(main.go:656-658, 680-682): bodies longer than the cap are cut to the cap
and "..." is appended; shorter bodies pass through verbatim. -/
def truncateAt (cap : Nat) (s : String) : String :=
  if cap < s.length then String.mk (s.data.take cap) ++ "..." else s

/-- Character-level model of Go's
`strings.ReplaceAll(body, "\n", "\n" + indent)` (main.go:659, 687): every
newline gains the indent of the surrounding list nesting. -/
def reindentChars (indent : List Char) : List Char → List Char
  | [] => []
  | ch :: rest =>
    if ch = '\n' then '\n' :: (indent ++ reindentChars indent rest)
    else ch :: reindentChars indent rest

def reindent (indent : String) (s : String) : String :=
  String.mk (reindentChars indent.data s.data)

/-- One rendered comment of `writeItemDetails` (main.go:684-687). -/
def commentChunk (c : Comment) : String :=
  "    - " ++ c.Author ++ " (" ++ fmtDate c.CreatedAt ++ "):\n      " ++
    reindent "      " (truncateAt 200 c.Body) ++ "\n"

/-- Go `writeItemDetails` (main.go:636-694, output.go:135-193) as the list
of strings it writes, one element per `Fprintf`/`Fprintln` call, in order.
The assignee, label, body and comment blocks are emitted only when their
guard holds; at most 5 comments are rendered, with a notice when more
exist. -/
def writeItemDetails (item : Item) : List String :=
  ["- [" ++ item.ItemType ++ " #" ++ toString item.Number ++ "] " ++
     item.Title ++ "\n",
   "  - URL: " ++ item.URL ++ "\n",
   "  - Repository: " ++ item.Repository ++ "\n",
   "  - State: " ++ item.State ++ "\n",
   "  - Created on: " ++ fmtDate item.CreatedAt ++ "\n",
   "  - Updated on: " ++ fmtDate item.UpdatedAt ++ "\n"] ++
  (if 0 < item.Assignees.length then
     ["  - Assignees: " ++ String.intercalate ", " item.Assignees ++ "\n"]
   else []) ++
  (if 0 < item.Labels.length then
     ["  - Labels: " ++ String.intercalate ", " item.Labels ++ "\n"]
   else []) ++
  (if item.Body ≠ "" then
     ["  - Body:\n    " ++ reindent "    " (truncateAt 300 item.Body) ++ "\n"]
   else []) ++
  (if 0 < item.Comments.length then
     ("  - Comments (" ++ toString item.Comments.length ++ "):\n") ::
     (if 5 < item.Comments.length then ["    (Only the first 5 shown)\n"]
      else []) ++
     (item.Comments.take 5).map commentChunk
   else []) ++
  ["\n"]

/-- Go `writeMarkdownFormat` (main.go:543-633, output.go:42-132) as the
list of written strings: header, summary counts, and the four involvement
subsections, each emitted only when its count is positive and containing
the details of the matching items in collection order. -/
def writeMarkdownFormat (items : List Item) (username : String)
    (range : DateRange) : List String :=
  let prCount := items.countP (fun it => it.ItemType == "PR")
  let issueCount := items.countP (fun it => it.ItemType == "Issue")
  let created := items.countP (fun it => it.Involvement == "created")
  let assigned := items.countP (fun it => it.Involvement == "assigned")
  let commented := items.countP (fun it => it.Involvement == "commented")
  let reviewed := items.countP (fun it => it.Involvement == "reviewed")
  ["# GitHub Activity Report - " ++ username ++ "\n",
   "Period: " ++ fmtDate range.StartDate ++ " to " ++ fmtDate range.EndDate ++
     "\n\n",
   "## Summary\n",
   "- Total items: " ++ toString items.length ++ "\n",
   "- Number of PRs: " ++ toString prCount ++ "\n",
   "- Number of Issues: " ++ toString issueCount ++ "\n\n",
   "- Created items: " ++ toString created ++ "\n",
   "- Assigned items: " ++ toString assigned ++ "\n",
   "- Commented items: " ++ toString commented ++ "\n",
   "- Reviewed items: " ++ toString reviewed ++ "\n\n",
   "## Item Details\n\n"] ++
  (if 0 < created then
     "### Created Items\n\n" ::
       (items.filter (fun it => it.Involvement == "created")).flatMap
         writeItemDetails
   else []) ++
  (if 0 < assigned then
     "### Assigned Items\n\n" ::
       (items.filter (fun it => it.Involvement == "assigned")).flatMap
         writeItemDetails
   else []) ++
  (if 0 < commented then
     "### Commented Items\n\n" ::
       (items.filter (fun it => it.Involvement == "commented")).flatMap
         writeItemDetails
   else []) ++
  (if 0 < reviewed then
     "### Reviewed Items\n\n" ::
       (items.filter (fun it => it.Involvement == "reviewed")).flatMap
         writeItemDetails
   else [])

/-- Does the character list `s` start with the pattern `pat`? -/
def beginsWith : List Char → List Char → Bool
  | [], _ => true
  | _ :: _, [] => false
  | p :: ps, c :: cs => p == c && beginsWith ps cs

theorem truncateAt_length_of_lt (cap : Nat) (s : String) (h : cap < s.length) :
    (truncateAt cap s).length = cap + 3 := by
  unfold truncateAt
  rw [if_pos h, String.length_append]
  show (s.data.take cap).length + 3 = cap + 3
  rw [List.length_take]
  have hs : s.length = s.data.length := rfl
  omega

theorem truncateAt_of_le (cap : Nat) (s : String) (h : s.length ≤ cap) :
    truncateAt cap s = s := by
  unfold truncateAt
  rw [if_neg (by omega)]

/-- C6: the truncation law of the narrative render: a body longer than 300
characters is rendered as exactly 303 characters (300 plus the 3-character
ellipsis) before newline re-indentation, a comment body longer than 200
characters as exactly 203, and anything at or under its cap verbatim.
`writeItemDetails` applies `truncateAt 300` to the item body and
`truncateAt 200` to each comment body before re-indenting. -/
theorem truncation_law (s : String) :
    (300 < s.length → (truncateAt 300 s).length = 303) ∧
    (s.length ≤ 300 → truncateAt 300 s = s) ∧
    (200 < s.length → (truncateAt 200 s).length = 203) ∧
    (s.length ≤ 200 → truncateAt 200 s = s) :=
  ⟨truncateAt_length_of_lt 300 s, truncateAt_of_le 300 s,
   truncateAt_length_of_lt 200 s, truncateAt_of_le 200 s⟩

set_option maxRecDepth 4000 in
/-- C6 witness: a 301-character body truncates to 303 characters, a short
body is verbatim; a 201-character comment body truncates to 203 characters,
a short one is verbatim. -/
theorem truncation_law_witness :
    (300 < (String.mk (List.replicate 301 'a')).length ∧
      (truncateAt 300 (String.mk (List.replicate 301 'a'))).length = 303) ∧
    (("hi" : String).length ≤ 300 ∧ truncateAt 300 "hi" = "hi") ∧
    (200 < (String.mk (List.replicate 201 'b')).length ∧
      (truncateAt 200 (String.mk (List.replicate 201 'b'))).length = 203) ∧
    (("ok" : String).length ≤ 200 ∧ truncateAt 200 "ok" = "ok") :=
  ⟨⟨by decide, (truncation_law (String.mk (List.replicate 301 'a'))).1 (by decide)⟩,
   ⟨by decide, (truncation_law "hi").2.1 (by decide)⟩,
   ⟨by decide, (truncation_law (String.mk (List.replicate 201 'b'))).2.2.1 (by decide)⟩,
   ⟨by decide, (truncation_law "ok").2.2.2 (by decide)⟩⟩

/-- C10: in the rendered details of a single item, no written chunk opens a
Body block when the item's body is empty; and when the item has no comments
the entire Comments block is absent: no written chunk opens the count
header, none opens the first-5-only notice, and none opens a comment
line. -/
theorem empty_blocks_omitted (item : Item) :
    (item.Body = "" → ∀ ch ∈ writeItemDetails item,
      beginsWith "  - Body:".data ch.data = false) ∧
    (item.Comments = [] → ∀ ch ∈ writeItemDetails item,
      beginsWith "  - Comments (".data ch.data = false ∧
      beginsWith "    (Only".data ch.data = false ∧
      beginsWith "    - ".data ch.data = false) := by
  constructor
  · intro h ch hch
    unfold writeItemDetails at hch
    rw [h] at hch
    simp only [ne_eq, List.mem_append, List.mem_cons, List.not_mem_nil,
      or_false, List.mem_map, not_true_eq_false, if_false] at hch
    rcases hch with (((h6 | hA) | hL) | hC) | rfl
    · rcases h6 with rfl | rfl | rfl | rfl | rfl | rfl <;> rfl
    · split at hA
      · rcases List.mem_singleton.mp hA with rfl
        rfl
      · cases hA
    · split at hL
      · rcases List.mem_singleton.mp hL with rfl
        rfl
      · cases hL
    · split at hC
      · rcases List.mem_append.mp hC with hC | hC
        · rcases List.mem_cons.mp hC with rfl | hC
          · rfl
          · split at hC
            · rcases List.mem_singleton.mp hC with rfl
              rfl
            · cases hC
        · rcases List.mem_map.mp hC with ⟨c, _, rfl⟩
          rfl
      · cases hC
    · rfl
  · intro h ch hch
    unfold writeItemDetails at hch
    rw [h] at hch
    simp only [ne_eq, List.mem_append, List.mem_cons, List.not_mem_nil,
      or_false, List.mem_map, List.length_nil, lt_irrefl, if_false] at hch
    rcases hch with (((h6 | hA) | hL) | hB) | rfl
    · rcases h6 with rfl | rfl | rfl | rfl | rfl | rfl <;> exact ⟨rfl, rfl, rfl⟩
    · split at hA
      · rcases List.mem_singleton.mp hA with rfl
        exact ⟨rfl, rfl, rfl⟩
      · cases hA
    · split at hL
      · rcases List.mem_singleton.mp hL with rfl
        exact ⟨rfl, rfl, rfl⟩
      · cases hL
    · split at hB
      · rcases List.mem_singleton.mp hB with rfl
        exact ⟨rfl, rfl, rfl⟩
      · cases hB
    · exact ⟨rfl, rfl, rfl⟩

/-- C7 scenario input: one Issue with involvement "created" and no
comments. -/
def scenarioIssue : Item :=
  { ItemType := "Issue", Number := 1, Title := "an issue", URL := "u1",
    State := "open", CreatedAt := 1, UpdatedAt := 2, Author := "alice",
    Assignees := [], Labels := [], Repository := "o/r",
    Involvement := "created", Body := "", Comments := [] }

/-- C7 scenario input: one PR with involvement "reviewed" and six
comments. -/
def scenarioPR : Item :=
  { ItemType := "PR", Number := 2, Title := "a pr", URL := "u2",
    State := "merged", CreatedAt := 3, UpdatedAt := 4, Author := "carol",
    Assignees := [], Labels := [], Repository := "o/r",
    Involvement := "reviewed", Body := "",
    Comments :=
      [⟨"bob", "c1", 5, 5⟩, ⟨"bob", "c2", 6, 6⟩, ⟨"bob", "c3", 7, 7⟩,
       ⟨"bob", "c4", 8, 8⟩, ⟨"bob", "c5", 9, 9⟩, ⟨"bob", "c6", 10, 10⟩] }

/-- The narrative render of the C7 scenario collection. -/
def scenarioRender : List String :=
  writeMarkdownFormat [scenarioIssue, scenarioPR] "alice" ⟨0, 10⟩

/-- C7: for the scenario collection (one created Issue with no comments, one
reviewed PR with six comments) the narrative render shows the summary counts
Total 2 / PRs 1 / Issues 1 / Created 1 / Reviewed 1 / Assigned 0 /
Commented 0; the detail section contains the Created and Reviewed
subsections and omits the Assigned and Commented ones; and the PR's comment
block renders exactly 5 comment lines plus the first-5-only notice. -/
theorem scenario_render_spec :
    "- Total items: 2\n" ∈ scenarioRender ∧
    "- Number of PRs: 1\n" ∈ scenarioRender ∧
    "- Number of Issues: 1\n\n" ∈ scenarioRender ∧
    "- Created items: 1\n" ∈ scenarioRender ∧
    "- Assigned items: 0\n" ∈ scenarioRender ∧
    "- Commented items: 0\n" ∈ scenarioRender ∧
    "- Reviewed items: 1\n\n" ∈ scenarioRender ∧
    "### Created Items\n\n" ∈ scenarioRender ∧
    "### Reviewed Items\n\n" ∈ scenarioRender ∧
    "### Assigned Items\n\n" ∉ scenarioRender ∧
    "### Commented Items\n\n" ∉ scenarioRender ∧
    scenarioRender.countP (fun ch => beginsWith "    - ".data ch.data) = 5 ∧
    "    (Only the first 5 shown)\n" ∈ scenarioRender := by
  decide

/-- Document model of the structured (JSON) output format: strings, numbers,
arrays and key-ordered objects.  Indentation/whitespace of
`json.MarshalIndent` carries no information and is not modelled; `time.Time`
values appear through their abstract integer instants, whose Go RFC3339
renderings are injective. -/
inductive Json where
  | str (s : String)
  | num (n : Int)
  | arr (elems : List Json)
  | obj (fields : List (String × Json))
  deriving Repr

/-- Serialization of one `Comment` as performed by `json.MarshalIndent`
inside `writeJSONFormat` (main.go:533-540): fields in struct order. -/
def encodeComment (c : Comment) : Json :=
  Json.obj [("Author", Json.str c.Author), ("Body", Json.str c.Body),
            ("CreatedAt", Json.num c.CreatedAt),
            ("UpdatedAt", Json.num c.UpdatedAt)]

/-- Serialization of one `Item` in Go struct-field order (main.go:23-38). -/
def encodeItem (it : Item) : Json :=
  Json.obj [("Type", Json.str it.ItemType), ("Number", Json.num it.Number),
            ("Title", Json.str it.Title), ("URL", Json.str it.URL),
            ("State", Json.str it.State), ("CreatedAt", Json.num it.CreatedAt),
            ("UpdatedAt", Json.num it.UpdatedAt),
            ("Author", Json.str it.Author),
            ("Assignees", Json.arr (it.Assignees.map Json.str)),
            ("Labels", Json.arr (it.Labels.map Json.str)),
            ("Repository", Json.str it.Repository),
            ("Involvement", Json.str it.Involvement),
            ("Body", Json.str it.Body),
            ("Comments", Json.arr (it.Comments.map encodeComment))]

/-- Go `writeJSONFormat` (main.go:533-540, output.go:32-39) at the document
level: the item collection marshalled as one array, one record per item. -/
def marshalItems (items : List Item) : Json :=
  Json.arr (items.map encodeItem)

def decodeStr : Json → Option String
  | Json.str s => some s
  | _ => none

def decodeNum : Json → Option Int
  | Json.num n => some n
  | _ => none

def decodeList {α : Type} (dec : Json → Option α) : List Json → Option (List α)
  | [] => some []
  | j :: rest =>
    match dec j with
    | none => none
    | some a =>
      match decodeList dec rest with
      | none => none
      | some as => some (a :: as)

/-- Modelled from the spec: the spec's round-trip property decodes "the
resulting document back" into an Item collection; the decoder (Go's
`encoding/json.Unmarshal` into `[]Item`) is not part of this repository, so
it is modelled as the standard strict inverse shape-reader of the marshalled
document. -/
def decodeComment : Json → Option Comment
  | Json.obj [("Author", a), ("Body", b), ("CreatedAt", cr),
              ("UpdatedAt", up)] => do
    let a ← decodeStr a
    let b ← decodeStr b
    let cr ← decodeNum cr
    let up ← decodeNum up
    some ⟨a, b, cr, up⟩
  | _ => none

/-- Modelled from the spec (see `decodeComment`): field-wise decoder of one
marshalled `Item` record. -/
def decodeItem : Json → Option Item
  | Json.obj [(k1, ty), (k2, num), (k3, title), (k4, url),
              (k5, st), (k6, cr), (k7, up),
              (k8, au), (k9, asg), (k10, lb),
              (k11, repo), (k12, inv), (k13, bd),
              (k14, cm)] =>
    if k1 = "Type" ∧ k2 = "Number" ∧ k3 = "Title" ∧ k4 = "URL" ∧
       k5 = "State" ∧ k6 = "CreatedAt" ∧ k7 = "UpdatedAt" ∧ k8 = "Author" ∧
       k9 = "Assignees" ∧ k10 = "Labels" ∧ k11 = "Repository" ∧
       k12 = "Involvement" ∧ k13 = "Body" ∧ k14 = "Comments" then do
    let ty ← decodeStr ty
    let num ← decodeNum num
    let title ← decodeStr title
    let url ← decodeStr url
    let st ← decodeStr st
    let cr ← decodeNum cr
    let up ← decodeNum up
    let au ← decodeStr au
    let asg ←
      match asg with
      | Json.arr l => decodeList decodeStr l
      | _ => none
    let lb ←
      match lb with
      | Json.arr l => decodeList decodeStr l
      | _ => none
    let repo ← decodeStr repo
    let inv ← decodeStr inv
    let bd ← decodeStr bd
    let cm ←
      match cm with
      | Json.arr l => decodeList decodeComment l
      | _ => none
    some ⟨ty, num, title, url, st, cr, up, au, asg, lb, repo, inv, bd, cm⟩
    else none
  | _ => none

/-- Modelled from the spec (see `decodeComment`): decoder of the marshalled
collection. -/
def unmarshalItems : Json → Option (List Item)
  | Json.arr l => decodeList decodeItem l
  | _ => none

theorem decodeList_map {α : Type} (dec : Json → Option α) (enc : α → Json)
    (l : List α) (h : ∀ x, dec (enc x) = some x) :
    decodeList dec (l.map enc) = some l := by
  induction l with
  | nil => rfl
  | cons x xs ih =>
    simp only [List.map_cons, decodeList, h x, ih]

theorem decodeComment_encodeComment (c : Comment) :
    decodeComment (encodeComment c) = some c := rfl

theorem decodeItem_encodeItem (it : Item) :
    decodeItem (encodeItem it) = some it := by
  have h1 : ∀ l : List String, decodeList decodeStr (l.map Json.str) = some l :=
    fun l => decodeList_map _ _ l (fun x => rfl)
  have h2 : ∀ l : List Comment,
      decodeList decodeComment (l.map encodeComment) = some l :=
    fun l => decodeList_map _ _ l decodeComment_encodeComment
  simp [decodeItem, encodeItem, decodeStr, decodeNum, h1, h2]

/-- C8: serializing an item collection to the structured format and decoding
the document back yields the original collection field for field. -/
theorem json_roundtrip (items : List Item) :
    unmarshalItems (marshalItems items) = some items := by
  unfold marshalItems unmarshalItems
  exact decodeList_map decodeItem encodeItem items decodeItem_encodeItem

theorem keepComment_eq (U : List String) (c : Comment) :
    keepComment U c = true ↔ c.Author ∉ U := by
  simp only [keepComment, Bool.not_eq_true', List.any_eq_false, beq_iff_eq]
  constructor
  · intro h hmem
    exact h c.Author hmem rfl
  · intro h u hu he
    exact h (he ▸ hu)

/-- C5: comment filtering retains exactly the comments whose author is not in
the ignore set (exact string equality), preserves relative order (the result
is a sublist of the input), never removes a comment whose author is outside
the set, and is idempotent both on a single comment list and on a whole item
collection. -/
theorem filterIgnoredUserComments_spec (U : List String) :
    (∀ cs : List Comment,
        (∀ c, c ∈ cs.filter (keepComment U) ↔ c ∈ cs ∧ c.Author ∉ U) ∧
        (cs.filter (keepComment U)).Sublist cs ∧
        (∀ c, c ∈ cs → c.Author ∉ U → c ∈ cs.filter (keepComment U)) ∧
        (cs.filter (keepComment U)).filter (keepComment U)
          = cs.filter (keepComment U)) ∧
    (∀ items : List Item,
        filterIgnoredUserComments (filterIgnoredUserComments items U) U
          = filterIgnoredUserComments items U) := by
  constructor
  · intro cs
    refine ⟨?_, List.filter_sublist cs, ?_, ?_⟩
    · intro c
      rw [List.mem_filter, keepComment_eq]
    · intro c hc hU
      rw [List.mem_filter, keepComment_eq]
      exact ⟨hc, hU⟩
    · rw [List.filter_filter]
      apply List.filter_congr
      intro c _
      cases h : keepComment U c <;> simp [h]
  · intro items
    unfold filterIgnoredUserComments
    rw [List.map_map]
    apply List.map_congr_left
    intro it _
    simp only [Function.comp]
    congr 1
    rw [List.filter_filter]
    apply List.filter_congr
    intro c _
    cases h : keepComment U c <;> simp [h]

/-- C9: comment filtering is a frame-preserving map: it keeps the number and
order of items, and leaves every field other than `Comments` unchanged
(projecting both sides to the comment-free part yields equal lists). -/
theorem filterIgnoredUserComments_frame (items : List Item) (U : List String) :
    (filterIgnoredUserComments items U).length = items.length ∧
    (filterIgnoredUserComments items U).map frameOf = items.map frameOf := by
  constructor
  · simp [filterIgnoredUserComments]
  · unfold filterIgnoredUserComments
    rw [List.map_map]
    apply List.map_congr_left
    intro it _
    rfl

/-! Concrete witness inputs and witness theorems. -/

/-- A summary record inside the date range `[0, 10]`. -/
def recIn : RawRecord :=
  ⟨"https://github.com/o/r/issues/1", 1, "in range", "open", 5, 6,
   "https://api.github.com/repos/o/r", "me", [], []⟩

/-- A summary record outside the date range `[0, 10]`. -/
def recOut : RawRecord :=
  ⟨"https://github.com/o/r/issues/2", 2, "too late", "open", 20, 21,
   "https://api.github.com/repos/o/r", "me", [], []⟩

/-- A transport oracle whose page 1 holds one in-range and one out-of-range
record and whose later pages are empty. -/
def oneFullPage : Nat → Nat → Except String (List RawRecord) :=
  fun p _ => if p = 1 then Except.ok [recIn, recOut] else Except.ok []

/-- C1 witness: on `oneFullPage` over the range `[0, 10]`, `fetchIssues`
returns exactly the in-range item and the theorem bounds its creation
time. -/
theorem fetch_date_postfilter_witness :
    (0 : Int) ≤ (processRecord "Issue" recIn).CreatedAt ∧
    (processRecord "Issue" recIn).CreatedAt ≤ 10 :=
  (fetch_date_postfilter oneFullPage ⟨0, 10⟩).1
    [processRecord "Issue" recIn] 2 rfl
    (processRecord "Issue" recIn) (List.mem_singleton.mpr rfl)

/-- A transport oracle that always yields a non-empty page. -/
def alwaysFull : Nat → Nat → Except String (List RawRecord) :=
  fun _ _ => Except.ok [recOut]

/-- A transport oracle whose first empty page is page 3. -/
def emptyAtThree : Nat → Nat → Except String (List RawRecord) :=
  fun p _ => if p < 3 then Except.ok [recOut] else Except.ok []

/-- C3 witness: the always-full source makes exactly 10 page requests, the
source first empty at page 3 makes exactly 3, and a concrete successful run
is bounded by 10. -/
theorem pagination_termination_witness :
    (∃ items, fetchPagesAux alwaysFull ⟨0, 10⟩ "Issue" 1 9 =
      Except.ok (items, 10)) ∧
    (∃ items, fetchPagesAux emptyAtThree ⟨0, 10⟩ "Issue" 1 9 =
      Except.ok (items, 3)) ∧
    (2 : Nat) ≤ 10 :=
  ⟨(pagination_termination alwaysFull ⟨0, 10⟩ "Issue").1
    (fun _ _ => ⟨[recOut], rfl, by simp⟩),
   (pagination_termination emptyAtThree ⟨0, 10⟩ "Issue").2.1 3
    (by decide) (by decide)
    (fun p a hp => ⟨[recOut], by simp [emptyAtThree, hp], by simp⟩)
    (fun a => rfl),
   (pagination_termination oneFullPage ⟨0, 10⟩ "Issue").2.2
    [processRecord "Issue" recIn] 2 rfl⟩

/-- A transport oracle whose page 1 is non-empty and whose page 2 fails on
every attempt. -/
def failAtTwo : Nat → Nat → Except String (List RawRecord) :=
  fun p _ => if p = 1 then Except.ok [recOut] else Except.error "boom"

/-- A client whose first five list fetches succeed and whose sixth
(reviewed PRs) fails on every attempt. -/
def lateFailClient : Client :=
  { issueGet := fun _ _ _ => Except.ok []
    prGet := fun inv _ _ =>
      if inv = "reviewed" then Except.error "late-boom" else Except.ok []
    issueEnrich := fun it => (it, none)
    prEnrich := fun it => (it, none) }

/-- A client whose list fetches all succeed (with no results) and whose
issue enrichment always reports a failure. -/
def enrichFailClient : Client :=
  { issueGet := fun _ _ _ => Except.ok []
    prGet := fun _ _ _ => Except.ok []
    issueEnrich := fun it => (it, some "enrich-fail")
    prEnrich := fun it => (it, none) }

/-- An item fed to the enrichment-warning part of the C2 witness. -/
def plainItem : Item :=
  { ItemType := "Issue", Number := 7, Title := "t", URL := "u",
    State := "open", CreatedAt := 1, UpdatedAt := 1, Author := "a",
    Assignees := [], Labels := [], Repository := "o/r", Involvement := "",
    Body := "", Comments := [] }

/-- C2 witness: a page-2 retry-exhausted failure makes the paginated fetch
fail; a failure of the sixth pass (reviewed PRs) makes the aggregation fail
and its run (here requesting "json") creates no file; with all fetches
succeeding the aggregation succeeds whatever enrichment does; and a failed
enrichment produces its warning. -/
theorem fetchAllItems_error_policy_witness :
    (∃ e2, fetchPagesAux failAtTwo ⟨0, 10⟩ "Issue" 1 9 = Except.error e2) ∧
    (∃ e2, fetchAllItems lateFailClient ⟨0, 10⟩ = Except.error e2) ∧
    ((mainRun "json" lateFailClient ⟨0, 10⟩ "u" [] "out.txt").1.all
      (fun ef => !ef.isCreate) = true) ∧
    fetchAllItems enrichFailClient ⟨0, 10⟩ =
      Except.ok
        (enrichPass enrichFailClient.issueEnrich "created" [] ++
         enrichPass enrichFailClient.issueEnrich "assigned" [] ++
         enrichPass enrichFailClient.issueEnrich "commented" [] ++
         enrichPass enrichFailClient.prEnrich "created" [] ++
         enrichPass enrichFailClient.prEnrich "assigned" [] ++
         enrichPass enrichFailClient.prEnrich "reviewed" [],
         warnPass enrichFailClient.issueEnrich "Issue" "created" [] ++
         warnPass enrichFailClient.issueEnrich "Issue" "assigned" [] ++
         warnPass enrichFailClient.issueEnrich "Issue" "commented" [] ++
         warnPass enrichFailClient.prEnrich "PR" "created" [] ++
         warnPass enrichFailClient.prEnrich "PR" "assigned" [] ++
         warnPass enrichFailClient.prEnrich "PR" "reviewed" []) ∧
    warnMsg "Issue"
        (enrichFailClient.issueEnrich
          { plainItem with Involvement := "created" }).1.Number "enrich-fail" ∈
      warnPass enrichFailClient.issueEnrich "Issue" "created" [plainItem] :=
  ⟨(fetchAllItems_error_policy lateFailClient ⟨0, 10⟩).1 failAtTwo "Issue" 2
      (by omega) (by omega)
      (fun q a hq hqp => by
        have hq1 : q = 1 := by omega
        subst hq1
        exact ⟨[recOut], rfl, by simp⟩)
      (fun a _ => ⟨"boom", rfl⟩),
   (fetchAllItems_error_policy lateFailClient ⟨0, 10⟩).2.1
      (Or.inr (Or.inr (Or.inr (Or.inr (Or.inr
        ⟨"Failed to retrieve PRs: late-boom", rfl⟩))))),
   (fetchAllItems_error_policy lateFailClient ⟨0, 10⟩).2.2.1
      "Failed to retrieve PRs: late-boom" rfl "json" "u" [] "out.txt",
   (fetchAllItems_error_policy enrichFailClient ⟨0, 10⟩).2.2.2.1
      [] 1 [] 1 [] 1 [] 1 [] 1 [] 1 rfl rfl rfl rfl rfl rfl,
   (fetchAllItems_error_policy enrichFailClient ⟨0, 10⟩).2.2.2.2
      enrichFailClient.issueEnrich "Issue" "created" [plainItem] plainItem
      "enrich-fail" (List.mem_singleton.mpr rfl) rfl⟩

/-- A client for the C4 witness; it is never reached. -/
def idleClient : Client :=
  { issueGet := fun _ _ _ => Except.ok []
    prGet := fun _ _ _ => Except.ok []
    issueEnrich := fun it => (it, none)
    prEnrich := fun it => (it, none) }

/-- C4 witness: requesting format "xml" produces the configuration error and
an empty effect trace. -/
theorem invalid_format_fails_fast_witness :
    mainRun "xml" idleClient ⟨0, 10⟩ "u" [] "out.txt" =
      ([], some "Invalid output format: xml (please specify md or json)") :=
  invalid_format_fails_fast "xml" (by decide) (by decide)
    idleClient ⟨0, 10⟩ "u" [] "out.txt"

/-- A comment kept by the filter in the C5 witness. -/
def keptComment : Comment := ⟨"alice", "hello", 1, 1⟩

/-- A comment dropped by the filter in the C5 witness. -/
def droppedComment : Comment := ⟨"spam", "buy now", 2, 2⟩

/-- C5 witness: filtering `[keptComment, droppedComment]` with ignore set
`["spam"]` keeps the comment whose author is not ignored. -/
theorem filterIgnoredUserComments_spec_witness :
    keptComment ∈
      [keptComment, droppedComment].filter (keepComment ["spam"]) :=
  ((filterIgnoredUserComments_spec ["spam"]).1
      [keptComment, droppedComment]).2.2.1 keptComment
    (List.mem_cons_self _ _) (by decide)

/-- An item with empty body and no comments for the C10 witness. -/
def bareItem : Item :=
  { ItemType := "PR", Number := 3, Title := "bare", URL := "u3",
    State := "open", CreatedAt := 1, UpdatedAt := 2, Author := "dan",
    Assignees := ["eve"], Labels := ["bug"], Repository := "o/r",
    Involvement := "created", Body := "", Comments := [] }

/-- C10 witness: `bareItem` has empty body and no comments, and its final
rendered chunk opens neither a Body block nor any part of a Comments block
(count header, notice, comment line). -/
theorem empty_blocks_omitted_witness :
    bareItem.Body = "" ∧ bareItem.Comments = [] ∧
    beginsWith "  - Body:".data ("\n" : String).data = false ∧
    (beginsWith "  - Comments (".data ("\n" : String).data = false ∧
     beginsWith "    (Only".data ("\n" : String).data = false ∧
     beginsWith "    - ".data ("\n" : String).data = false) :=
  ⟨rfl, rfl,
   (empty_blocks_omitted bareItem).1 rfl "\n" (by decide),
   (empty_blocks_omitted bareItem).2 rfl "\n" (by decide)⟩
